import Mathlib

/-!
Verification of the audio capture & WAV-encoding pipeline of the AI-tutor
chat front-end.  The definitions below are shallow embeddings of the
JavaScript source (`ChatInterface` component): float samples are modelled
as rationals, byte buffers as lists of naturals below 256, and the React
state/ref cells as explicit record fields.
-/

namespace AITutor

/-! ## PCM/WAV encoder (`audioBufferToWav`)

The decoded audio buffer carries its sample rate and the channel-0 float
data (`audioBuffer.getChannelData(0)`), modelled as rationals. -/

structure AudioBuffer where
  sampleRate : ℕ
  channelData : List ℚ

/-- Rounding toward zero, as ECMAScript integer conversion does:
ceiling for negative values, floor otherwise. -/
def truncateTowardZero (q : ℚ) : ℤ :=
  if q < 0 then ⌈q⌉ else ⌊q⌋

/-- ECMAScript `ToInt16`, applied on assignment into an `Int16Array`:
truncate toward zero, reduce mod 2^16, reinterpret as signed. -/
def toInt16 (q : ℚ) : ℤ :=
  if truncateTowardZero q % 65536 < 32768 then truncateTowardZero q % 65536
  else truncateTowardZero q % 65536 - 65536

/-- `const sample = Math.max(-1, Math.min(1, channelData[i]));
    samples[i] = sample < 0 ? sample * 0x8000 : sample * 0x7FFF;`
with `samples` an `Int16Array`. -/
def quantizeSample (s : ℚ) : ℤ :=
  toInt16 (if max (-1) (min 1 s) < 0 then max (-1) (min 1 s) * 0x8000
           else max (-1) (min 1 s) * 0x7FFF)

/-- `writeString`: ASCII bytes of a tag string. -/
def asciiBytes (s : String) : List ℕ :=
  s.toList.map Char.toNat

/-- `view.setUint16(off, v, true)`: two little-endian bytes. -/
def u16le (v : ℕ) : List ℕ :=
  [v % 256, v / 256 % 256]

/-- `view.setUint32(off, v, true)`: four little-endian bytes
(the stored value is `v` reduced mod 2^32, as `setUint32` wraps). -/
def u32le (v : ℕ) : List ℕ :=
  [v % 256, v / 256 % 256, v / 65536 % 256, v / 16777216 % 256]

/-- `view.setInt16(off, z, true)`: the 16-bit two's-complement bytes,
little-endian. -/
def i16le (z : ℤ) : List ℕ :=
  u16le (z % 65536).toNat

/-- The 44-byte header written at offsets 0..43: `"RIFF"`, RIFF chunk size
`36 + n*2`, `"WAVE"`, `"fmt "`, subchunk1 size 16, format tag, channel
count, sample rate, byte rate, block align, bit depth, `"data"`, data
subchunk size `n*2` — exactly the `writeString`/`setUint`-sequence of the
source with `format = 1`, `numChannels = 1`, `bitDepth = 16`. -/
def wavHeader (sampleRate n : ℕ) : List ℕ :=
  asciiBytes "RIFF" ++ u32le (36 + n * 2) ++ asciiBytes "WAVE" ++
  asciiBytes "fmt " ++ u32le 16 ++ u16le 1 ++ u16le 1 ++ u32le sampleRate ++
  u32le (sampleRate * 1 * 16 / 8) ++ u16le (1 * 16 / 8) ++ u16le 16 ++
  asciiBytes "data" ++ u32le (n * 2)

/-- The PCM payload: every quantized sample as little-endian 16-bit words,
in order. -/
def wavData (samples : List ℤ) : List ℕ :=
  samples.flatMap i16le

/-- `audioBufferToWav`: quantize channel 0 and serialize header + PCM data
(the `Int16Array` has `channelData.length` entries, so the header's `n`
is the channel-data length). -/
def audioBufferToWav (ab : AudioBuffer) : List ℕ :=
  wavHeader ab.sampleRate ab.channelData.length ++
  wavData (ab.channelData.map quantizeSample)

/-! ## Conformant WAV reader (spec-modelled)

Modelled from the spec: the repository contains no WAV parser; the spec's
round-trip property appeals to "a conformant WAV parser" reading the
little-endian fields and de-quantizing by the inverse scaling.  These
definitions follow those words. -/

/-- Little-endian 16-bit unsigned read at a byte offset. -/
def readU16 (bs : List ℕ) (off : ℕ) : ℕ :=
  bs.getD off 0 + 256 * bs.getD (off + 1) 0

/-- Little-endian 32-bit unsigned read at a byte offset. -/
def readU32 (bs : List ℕ) (off : ℕ) : ℕ :=
  bs.getD off 0 + 256 * bs.getD (off + 1) 0 +
  65536 * bs.getD (off + 2) 0 + 16777216 * bs.getD (off + 3) 0

/-- Two's-complement decoding of a little-endian 16-bit word. -/
def decodeI16 (lo hi : ℕ) : ℤ :=
  if lo + 256 * hi < 32768 then ((lo + 256 * hi : ℕ) : ℤ)
  else ((lo + 256 * hi : ℕ) : ℤ) - 65536

/-- Split a byte list into consecutive little-endian 16-bit words. -/
def bytePairsToInts : List ℕ → List ℤ
  | lo :: hi :: rest => decodeI16 lo hi :: bytePairsToInts rest
  | _ => []

/-- Modelled from the spec: de-quantization by the inverse of the encoder's
scaling (negative values by 0x8000, non-negative by 0x7FFF). -/
def dequantizeSample (z : ℤ) : ℚ :=
  if z < 0 then (z : ℚ) / 0x8000 else (z : ℚ) / 0x7FFF

/-- Parse the PCM samples back out of an encoded WAV buffer: skip the
44-byte header, read little-endian 16-bit words, de-quantize. -/
def parseWavSamples (bs : List ℕ) : List ℚ :=
  (bytePairsToInts (bs.drop 44)).map dequantizeSample

/-! ## Spec model of the quantizer (for the refinement claim)

The spec's words: clamp to [-1, 1]; scale negative values by 0x8000 and
non-negative ones by 0x7FFF; round toward zero (no 16-bit wrap-around). -/

def quantizeSpec (s : ℚ) : ℤ :=
  truncateTowardZero (if max (-1) (min 1 s) < 0 then max (-1) (min 1 s) * 0x8000
                      else max (-1) (min 1 s) * 0x7FFF)

/-! ## Basic quantizer lemmas -/

lemma truncateTowardZero_bounds (q : ℚ) (lo hi : ℤ) (hlo : (lo : ℚ) ≤ q)
    (hhi : q ≤ (hi : ℚ)) : lo ≤ truncateTowardZero q ∧ truncateTowardZero q ≤ hi := by
  unfold truncateTowardZero
  split
  · constructor
    · exact le_trans (by exact_mod_cast (Int.ceil_intCast lo).symm.le) (Int.ceil_le_ceil hlo)
    · exact Int.ceil_le.mpr hhi
  · constructor
    · exact Int.le_floor.mpr hlo
    · exact le_trans (Int.floor_le_floor hhi) (by exact_mod_cast (Int.floor_intCast hi).le)

lemma quantizeSpec_bounds (s : ℚ) :
    -32768 ≤ quantizeSpec s ∧ quantizeSpec s ≤ 32767 := by
  unfold quantizeSpec
  have hc1 : (-1 : ℚ) ≤ max (-1) (min 1 s) := le_max_left _ _
  have hc2 : max (-1) (min 1 s) ≤ 1 := max_le (by norm_num) (min_le_left _ _)
  split
  · refine truncateTowardZero_bounds _ (-32768) 32767 ?_ ?_ <;> push_cast <;> nlinarith
  · refine truncateTowardZero_bounds _ (-32768) 32767 ?_ ?_ <;> push_cast <;> nlinarith

lemma quantizeSample_eq_spec (s : ℚ) : quantizeSample s = quantizeSpec s := by
  obtain ⟨hb1, hb2⟩ := quantizeSpec_bounds s
  unfold quantizeSpec at hb1 hb2
  unfold quantizeSample toInt16 quantizeSpec
  by_cases h : max (-1) (min 1 s) < 0
  · rw [if_pos h] at hb1 hb2 ⊢
    split <;> omega
  · rw [if_neg h] at hb1 hb2 ⊢
    split <;> omega

lemma quantizeSample_bounds (s : ℚ) :
    -32768 ≤ quantizeSample s ∧ quantizeSample s ≤ 32767 := by
  rw [quantizeSample_eq_spec]; exact quantizeSpec_bounds s

lemma quantizeSample_one : quantizeSample 1 = 32767 := by
  rw [quantizeSample_eq_spec]
  unfold quantizeSpec truncateTowardZero
  norm_num

lemma quantizeSample_negOne : quantizeSample (-1) = -32768 := by
  rw [quantizeSample_eq_spec]
  unfold quantizeSpec truncateTowardZero
  rw [if_pos (by norm_num), if_pos (by norm_num),
    show ((-1 : ℚ) ⊔ 1 ⊓ (-1)) * 32768 = -32768 by norm_num,
    show (-32768 : ℚ) = ((-32768 : ℤ) : ℚ) by norm_num, Int.ceil_intCast]

/-! ## Round-trip machinery -/

lemma asciiBytes_RIFF : asciiBytes "RIFF" = [82, 73, 70, 70] := by decide

lemma asciiBytes_WAVE : asciiBytes "WAVE" = [87, 65, 86, 69] := by decide

lemma asciiBytes_fmt : asciiBytes "fmt " = [102, 109, 116, 32] := by decide

lemma asciiBytes_data : asciiBytes "data" = [100, 97, 116, 97] := by decide

/-- The header followed by any tail, as one explicit byte chain. -/
lemma wavHeader_cons (sr n : ℕ) (t : List ℕ) : wavHeader sr n ++ t =
    82 :: 73 :: 70 :: 70 ::
    (36 + n * 2) % 256 :: (36 + n * 2) / 256 % 256 ::
    (36 + n * 2) / 65536 % 256 :: (36 + n * 2) / 16777216 % 256 ::
    87 :: 65 :: 86 :: 69 :: 102 :: 109 :: 116 :: 32 ::
    16 % 256 :: 16 / 256 % 256 :: 16 / 65536 % 256 :: 16 / 16777216 % 256 ::
    1 % 256 :: 1 / 256 % 256 :: 1 % 256 :: 1 / 256 % 256 ::
    sr % 256 :: sr / 256 % 256 :: sr / 65536 % 256 :: sr / 16777216 % 256 ::
    (sr * 1 * 16 / 8) % 256 :: (sr * 1 * 16 / 8) / 256 % 256 ::
    (sr * 1 * 16 / 8) / 65536 % 256 :: (sr * 1 * 16 / 8) / 16777216 % 256 ::
    (1 * 16 / 8) % 256 :: (1 * 16 / 8) / 256 % 256 :: 16 % 256 :: 16 / 256 % 256 ::
    100 :: 97 :: 116 :: 97 ::
    (n * 2) % 256 :: (n * 2) / 256 % 256 ::
    (n * 2) / 65536 % 256 :: (n * 2) / 16777216 % 256 :: t := by
  simp only [wavHeader, asciiBytes_RIFF, asciiBytes_WAVE, asciiBytes_fmt,
    asciiBytes_data, u32le, u16le, List.append_assoc, List.cons_append,
    List.nil_append]

lemma readU32_wavHeader_4 (sr n : ℕ) (t : List ℕ) :
    readU32 (wavHeader sr n ++ t) 4 =
      (36 + n * 2) % 256 + 256 * ((36 + n * 2) / 256 % 256) +
      65536 * ((36 + n * 2) / 65536 % 256) +
      16777216 * ((36 + n * 2) / 16777216 % 256) := by
  rw [wavHeader_cons]; rfl

lemma readU32_wavHeader_40 (sr n : ℕ) (t : List ℕ) :
    readU32 (wavHeader sr n ++ t) 40 =
      n * 2 % 256 + 256 * (n * 2 / 256 % 256) +
      65536 * (n * 2 / 65536 % 256) +
      16777216 * (n * 2 / 16777216 % 256) := by
  rw [wavHeader_cons]; rfl

lemma decodeI16_i16le (z : ℤ) (h1 : -32768 ≤ z) (h2 : z ≤ 32767) :
    decodeI16 ((z % 65536).toNat % 256) ((z % 65536).toNat / 256 % 256) = z := by
  unfold decodeI16
  split <;> omega

lemma bytePairsToInts_flatMap (zs : List ℤ)
    (h : ∀ z ∈ zs, -32768 ≤ z ∧ z ≤ 32767) :
    bytePairsToInts (zs.flatMap i16le) = zs := by
  induction zs with
  | nil => rfl
  | cons z zs ih =>
    obtain ⟨h1, h2⟩ := h z (List.mem_cons_self z zs)
    rw [List.flatMap_cons,
      show i16le z = [(z % 65536).toNat % 256, (z % 65536).toNat / 256 % 256] from rfl,
      List.cons_append, List.cons_append, List.nil_append]
    show decodeI16 _ _ :: bytePairsToInts (zs.flatMap i16le) = z :: zs
    rw [decodeI16_i16le z h1 h2, ih fun w hw => h w (List.mem_cons_of_mem z hw)]

lemma wavHeader_length (sr n : ℕ) : (wavHeader sr n).length = 44 := by
  have h := wavHeader_cons sr n []
  rw [List.append_nil] at h
  rw [h]
  rfl

lemma audioBufferToWav_drop (ab : AudioBuffer) :
    (audioBufferToWav ab).drop 44 = wavData (ab.channelData.map quantizeSample) := by
  unfold audioBufferToWav
  rw [← wavHeader_length ab.sampleRate ab.channelData.length, List.drop_left]

lemma parseWavSamples_encode (ab : AudioBuffer) :
    parseWavSamples (audioBufferToWav ab) =
      ab.channelData.map (fun s => dequantizeSample (quantizeSample s)) := by
  unfold parseWavSamples
  rw [audioBufferToWav_drop]
  unfold wavData
  rw [bytePairsToInts_flatMap _ (by
    intro z hz
    simp only [List.mem_map] at hz
    obtain ⟨s, _, rfl⟩ := hz
    exact quantizeSample_bounds s)]
  rw [List.map_map]
  rfl

lemma dequantize_quantize_close (s : ℚ) (h1 : -1 ≤ s) (h2 : s ≤ 1) :
    |dequantizeSample (quantizeSample s) - s| ≤ 1 / 0x7FFF := by
  rw [quantizeSample_eq_spec]
  unfold quantizeSpec
  rw [show max (-1) (min 1 s) = s by rw [min_eq_right h2]; exact max_eq_right h1]
  by_cases hs : s < 0
  · rw [if_pos hs]
    unfold truncateTowardZero
    rw [if_pos (by nlinarith)]
    have hA : s * 32768 ≤ ((⌈s * 32768⌉ : ℤ) : ℚ) := Int.le_ceil _
    have hB : ((⌈s * 32768⌉ : ℤ) : ℚ) < s * 32768 + 1 := Int.ceil_lt_add_one _
    unfold dequantizeSample
    by_cases hq : (⌈s * 32768⌉ : ℤ) < 0
    · rw [if_pos hq, abs_le]
      constructor <;> linarith
    · push_neg at hq
      have hq0 : (⌈s * 32768⌉ : ℤ) = 0 :=
        le_antisymm (Int.ceil_le.mpr (by push_cast; nlinarith)) hq
      rw [hq0] at hB
      rw [hq0]
      push_cast at hB
      norm_num
      rw [abs_le]
      constructor <;> linarith
  · push_neg at hs
    rw [if_neg (not_lt.mpr hs)]
    unfold truncateTowardZero
    rw [if_neg (not_lt.mpr (by nlinarith))]
    have hA : ((⌊s * 32767⌋ : ℤ) : ℚ) ≤ s * 32767 := Int.floor_le _
    have hB : s * 32767 < ((⌊s * 32767⌋ : ℤ) : ℚ) + 1 := Int.lt_floor_add_one _
    have hq : ¬ ((⌊s * 32767⌋ : ℤ) < 0) :=
      not_lt.mpr (Int.le_floor.mpr (by push_cast; nlinarith))
    unfold dequantizeSample
    rw [if_neg hq, abs_le]
    constructor <;> linarith

lemma wavData_length (samples : List ℤ) :
    (wavData samples).length = 2 * samples.length := by
  unfold wavData
  induction samples with
  | nil => rfl
  | cons z zs ih =>
    rw [List.flatMap_cons, List.length_append, ih,
      show (i16le z).length = 2 from rfl, List.length_cons]
    omega

/-! ## Claim theorems: the PCM/WAV encoder -/

/-- C1: the encoder clamps each sample to [-1, 1] and quantizes it by the
spec's rule — scale negatives by 0x8000 and non-negatives by 0x7FFF,
rounding toward zero — always landing in the signed 16-bit range (so the
`Int16Array` wrap never fires), with 1.0 ↦ 32767 and -1.0 ↦ -32768. -/
theorem quantizer_matches_spec : ∀ s : ℚ,
    quantizeSample s = quantizeSpec s ∧
    (-32768 ≤ quantizeSample s ∧ quantizeSample s ≤ 32767) ∧
    quantizeSample 1 = 32767 ∧ quantizeSample (-1) = -32768 :=
  fun s =>
    ⟨quantizeSample_eq_spec s, quantizeSample_bounds s,
     quantizeSample_one, quantizeSample_negOne⟩

/-- C2: for a buffer of n samples the WAV output is 44 + 2n bytes long,
its `data` subchunk size field reads back 2n and its RIFF chunk size field
reads back 36 + 2n (the size fields are 32-bit, hence the representability
bound, which holds for every buffer the platform can allocate). -/
theorem wav_sizes (ab : AudioBuffer)
    (h : 36 + 2 * ab.channelData.length < 4294967296) :
    (audioBufferToWav ab).length = 44 + 2 * ab.channelData.length ∧
    readU32 (audioBufferToWav ab) 40 = 2 * ab.channelData.length ∧
    readU32 (audioBufferToWav ab) 4 = 36 + 2 * ab.channelData.length := by
  refine ⟨?_, ?_, ?_⟩
  · unfold audioBufferToWav
    rw [List.length_append, wavHeader_length, wavData_length, List.length_map]
  · unfold audioBufferToWav
    rw [readU32_wavHeader_40]
    omega
  · unfold audioBufferToWav
    rw [readU32_wavHeader_4]
    omega

/-- C2 witness: the zero-length buffer yields the bare 44-byte header with
`data` size field 0 and RIFF size field 36. -/
theorem wav_sizes_witness :
    (audioBufferToWav ⟨16000, []⟩).length = 44 + 2 * 0 ∧
    readU32 (audioBufferToWav ⟨16000, []⟩) 40 = 2 * 0 ∧
    readU32 (audioBufferToWav ⟨16000, []⟩) 4 = 36 + 2 * 0 :=
  wav_sizes ⟨16000, []⟩ (by norm_num)

/-- C3: the header of an encoded 16 kHz buffer carries the ASCII tags
"RIFF", "WAVE", "fmt ", "data" and the little-endian fields: format tag 1,
channel count 1, sample rate 16000, byte rate sampleRate·channels·bitDepth/8,
block align channels·bitDepth/8, bit depth 16 (the decode stage always
hands the encoder a 16 kHz buffer). -/
theorem wav_header_fields : ∀ samples : List ℚ,
    ((audioBufferToWav ⟨16000, samples⟩).take 4 = asciiBytes "RIFF") ∧
    (((audioBufferToWav ⟨16000, samples⟩).drop 8).take 4 = asciiBytes "WAVE") ∧
    (((audioBufferToWav ⟨16000, samples⟩).drop 12).take 4 = asciiBytes "fmt ") ∧
    (((audioBufferToWav ⟨16000, samples⟩).drop 36).take 4 = asciiBytes "data") ∧
    readU16 (audioBufferToWav ⟨16000, samples⟩) 20 = 1 ∧
    readU16 (audioBufferToWav ⟨16000, samples⟩) 22 = 1 ∧
    readU32 (audioBufferToWav ⟨16000, samples⟩) 24 = 16000 ∧
    readU32 (audioBufferToWav ⟨16000, samples⟩) 28 = 16000 * 1 * 16 / 8 ∧
    readU16 (audioBufferToWav ⟨16000, samples⟩) 32 = 1 * 16 / 8 ∧
    readU16 (audioBufferToWav ⟨16000, samples⟩) 34 = 16 := by
  intro samples
  unfold audioBufferToWav
  dsimp only
  rw [wavHeader_cons]
  refine ⟨rfl, rfl, rfl, rfl, rfl, rfl, rfl, ?_, rfl, rfl⟩
  rw [readU32]
  norm_num

/-- C4: decoding an encoded buffer with the conformant parser returns one
sample per input sample, each within one quantization step (1/0x7FFF) of
the original, provided the inputs lie in [-1, 1]. -/
theorem wav_roundtrip (ab : AudioBuffer)
    (hb : ∀ s ∈ ab.channelData, -1 ≤ s ∧ s ≤ 1) :
    (parseWavSamples (audioBufferToWav ab)).length = ab.channelData.length ∧
    ∀ i, i < ab.channelData.length →
      |(parseWavSamples (audioBufferToWav ab)).getD i 0 -
        ab.channelData.getD i 0| ≤ 1 / 0x7FFF := by
  have hp := parseWavSamples_encode ab
  constructor
  · rw [hp, List.length_map]
  · intro i hi
    rw [hp, List.getD_eq_getElem _ _ (by rw [List.length_map]; exact hi),
      List.getD_eq_getElem _ _ hi, List.getElem_map]
    obtain ⟨h1, h2⟩ := hb _ (List.getElem_mem hi)
    exact dequantize_quantize_close _ h1 h2

/-- C4 witness: round-trip a concrete one-sample buffer. -/
theorem wav_roundtrip_witness :
    |(parseWavSamples (audioBufferToWav ⟨16000, [1/2]⟩)).getD 0 0 -
      (AudioBuffer.mk 16000 [1/2]).channelData.getD 0 0| ≤ 1 / 0x7FFF :=
  (wav_roundtrip ⟨16000, [1/2]⟩ (by
    intro s hs
    rw [List.mem_singleton] at hs
    subst hs
    norm_num)).2 0 (by norm_num)

/-! ## Capture session state machine (`startRecording` / `stopRecording`)

The React refs and flags governing one capture session:
`mediaRecorderRef.current` (whether a recorder handle is installed), the
`isRecording` flag, and the `audioChunksRef.current` chunk buffer. -/

structure CaptureState where
  recorderSet : Bool
  recording : Bool
  chunks : List (List ℕ)

/-- `startRecording`: when `getUserMedia` grants a stream, install a fresh
recorder, clear the chunk buffer (`audioChunksRef.current = []`) and raise
the recording flag; when it throws (permission denied / no device) the
`catch` block only alerts, leaving every ref and flag unchanged. -/
def startRecording (s : CaptureState) (granted : Bool) : CaptureState :=
  if granted then { recorderSet := true, recording := true, chunks := [] }
  else s

/-- `ondataavailable`: `if (event.data.size > 0) audioChunksRef.current.push(event.data)`. -/
def onDataAvailable (s : CaptureState) (chunk : List ℕ) : CaptureState :=
  if chunk.length > 0 then { s with chunks := s.chunks ++ [chunk] } else s

/-- `stopRecording`: `if (mediaRecorderRef.current && isRecording)`, stop
the recorder — whose `onstop` handler assembles the single blob from the
buffered chunks in arrival order (`new Blob(audioChunksRef.current, ...)`)
— and lower the flag; otherwise nothing happens and no blob is produced. -/
def stopRecording (s : CaptureState) : CaptureState × Option (List ℕ) :=
  if s.recorderSet && s.recording then
    ({ s with recording := false }, some s.chunks.flatten)
  else (s, none)

lemma foldl_onDataAvailable (cs : List (List ℕ)) (init : CaptureState) :
    cs.foldl onDataAvailable init =
      { init with chunks := init.chunks ++ cs.filter fun c => 0 < c.length } := by
  induction cs generalizing init with
  | nil => simp
  | cons c cs ih =>
    rw [List.foldl_cons, ih, List.filter_cons]
    unfold onDataAvailable
    by_cases h : 0 < c.length
    · rw [if_pos h, if_pos (by simpa using h)]
      simp
    · rw [if_neg h, if_neg (by simpa using h)]

lemma flatten_filter_pos (cs : List (List ℕ)) :
    (cs.filter fun c => 0 < c.length).flatten = cs.flatten := by
  induction cs with
  | nil => rfl
  | cons c cs ih =>
    rw [List.filter_cons]
    by_cases h : 0 < c.length
    · rw [if_pos (by simpa using h), List.flatten_cons, ih, List.flatten_cons]
    · have hc : c = [] := List.length_eq_zero.mp (by omega)
      rw [if_neg (by simpa using h), ih, List.flatten_cons, hc, List.nil_append]

/-! ## Transcription stage and track release

State visible to `convertToWavAndTranscribe` / `handleAudioTranscription`:
the text input field, the transcribing flag, the `alert`s shown, whether
the stream's tracks have been stopped, and the blob posted to the
transcription collaborator. -/

structure TranscribeResult where
  success : Bool
  text : String
  error : String

structure SessionState where
  inputText : String
  isTranscribing : Bool
  alerts : List String
  tracksStopped : Bool
  sentWav : Option (List ℕ)

/-- `handleAudioTranscription`: raise the transcribing flag, post the blob,
then either fill the input field (`result.success`), alert on a reported
failure, or alert on a thrown error; the `finally` block always lowers the
flag.  The internal try/catch means this function never propagates an
exception. -/
def handleAudioTranscription (st : SessionState) (blob : List ℕ)
    (result : Except String TranscribeResult) : SessionState :=
  match result with
  | Except.ok r =>
      if r.success then
        { st with isTranscribing := false, sentWav := some blob,
                  inputText := r.text }
      else
        { st with isTranscribing := false, sentWav := some blob,
                  alerts := st.alerts ++ ["Could not transcribe audio: " ++ r.error] }
  | Except.error _ =>
      { st with isTranscribing := false, sentWav := some blob,
                alerts := st.alerts ++ ["Transcription failed. Please try again."] }

/-- `convertToWavAndTranscribe`: decode the captured blob (outcome given by
`decoded`), encode to WAV, transcribe, then `stream.getTracks().forEach(stop)`;
the `catch` arm alerts and stops the tracks as well. -/
def convertToWavAndTranscribe (st : SessionState)
    (decoded : Except String AudioBuffer)
    (result : Except String TranscribeResult) : SessionState :=
  match decoded with
  | Except.ok buf =>
      { handleAudioTranscription st (audioBufferToWav buf) result with
          tracksStopped := true }
  | Except.error _ =>
      { st with alerts := st.alerts ++ ["Error processing audio. Please try again."],
                tracksStopped := true }

/-! ## Format negotiator -/

/-- `let options = { mimeType: 'audio/webm' }` overridden to WAV when
`MediaRecorder.isTypeSupported('audio/wav')`, else to Opus when
`isTypeSupported('audio/webm;codecs=opus')`. -/
def negotiateMimeType (supported : String → Bool) : String :=
  if supported "audio/wav" then "audio/wav"
  else if supported "audio/webm;codecs=opus" then "audio/webm;codecs=opus"
  else "audio/webm"

/-! ## Text input -/

/-- JavaScript `String.prototype.trim`: strip leading and trailing
whitespace. -/
def trimText (s : String) : String :=
  String.mk (((s.data.dropWhile Char.isWhitespace).reverse.dropWhile
    Char.isWhitespace).reverse)

structure InputState where
  inputText : String
  isLoading : Bool

/-- `handleSendText`: `if (inputText.trim() && !isLoading)` dispatch the
trimmed text via `onSendMessage` and clear the field; otherwise do
nothing. -/
def handleSendText (st : InputState) : InputState × Option String :=
  if trimText st.inputText ≠ "" ∧ st.isLoading = false then
    ({ st with inputText := "" }, some (trimText st.inputText))
  else (st, none)

/-! ## Claim theorems: capture lifecycle and UI handlers -/

/-- C5: whatever the outcomes of the decode stage and of the transcription
call, a capture cycle always ends with the stream's tracks stopped. -/
theorem tracks_always_released : ∀ (st : SessionState)
    (decoded : Except String AudioBuffer)
    (result : Except String TranscribeResult),
    (convertToWavAndTranscribe st decoded result).tracksStopped = true := by
  intro st decoded result
  unfold convertToWavAndTranscribe
  cases decoded <;> rfl

/-- C6: a start/data*/stop cycle emits exactly one blob: the concatenation
of the arrived chunks in arrival order, whose length is the sum of the
chunk lengths — independently of any chunks left over from an earlier
session (the buffer is cleared on start). -/
theorem capture_cycle_blob : ∀ (s0 : CaptureState) (cs : List (List ℕ)),
    (stopRecording (cs.foldl onDataAvailable (startRecording s0 true))).2 =
      some cs.flatten ∧
    cs.flatten.length = (cs.map List.length).sum := by
  intro s0 cs
  constructor
  · rw [show startRecording s0 true = ⟨true, true, []⟩ from rfl,
      foldl_onDataAvailable]
    simp [stopRecording, flatten_filter_pos]
  · exact List.length_flatten cs

/-- C9: calling stop with no recorder installed, or with the recording flag
down, changes nothing and produces no blob. -/
theorem stop_without_start_noop (s : CaptureState)
    (h : s.recorderSet = false ∨ s.recording = false) :
    stopRecording s = (s, none) := by
  unfold stopRecording
  rcases h with h | h <;> rw [h] <;> simp

/-- C9 witness: stop on the initial idle state. -/
theorem stop_without_start_noop_witness :
    stopRecording ⟨false, false, []⟩ = (⟨false, false, []⟩, none) :=
  stop_without_start_noop ⟨false, false, []⟩ (Or.inl rfl)

/-- C7: the negotiator is a pure function of the capability predicate:
WAV when supported, else Opus-in-WebM when supported, else plain WebM. -/
theorem format_negotiation (supported : String → Bool) :
    (supported "audio/wav" = true →
      negotiateMimeType supported = "audio/wav") ∧
    (supported "audio/wav" = false →
      supported "audio/webm;codecs=opus" = true →
      negotiateMimeType supported = "audio/webm;codecs=opus") ∧
    (supported "audio/wav" = false →
      supported "audio/webm;codecs=opus" = false →
      negotiateMimeType supported = "audio/webm") := by
  refine ⟨fun h1 => ?_, fun h1 h2 => ?_, fun h1 h2 => ?_⟩
  · simp [negotiateMimeType, h1]
  · simp [negotiateMimeType, h1, h2]
  · simp [negotiateMimeType, h1, h2]

/-- C7 witness: a platform supporting nothing falls back to `audio/webm`. -/
theorem format_negotiation_witness :
    negotiateMimeType (fun _ => false) = "audio/webm" :=
  (format_negotiation (fun _ => false)).2.2 rfl rfl

/-- C8: whenever transcription reports failure or throws, the input field
is untouched. -/
theorem transcription_failure_preserves_input (st : SessionState)
    (blob : List ℕ) (result : Except String TranscribeResult)
    (h : ∀ r, result = Except.ok r → r.success = false) :
    (handleAudioTranscription st blob result).inputText = st.inputText := by
  cases result with
  | ok r => simp [handleAudioTranscription, h r rfl]
  | error e => rfl

/-- C8 witness: a thrown transcription error leaves a concrete draft
untouched. -/
theorem transcription_failure_preserves_input_witness :
    (handleAudioTranscription ⟨"draft", false, [], false, none⟩ [1, 2, 3]
      (Except.error "network")).inputText = "draft" :=
  transcription_failure_preserves_input ⟨"draft", false, [], false, none⟩
    [1, 2, 3] (Except.error "network") (fun _ h => Except.noConfusion h)

/-- C10: a message is dispatched only when the trimmed input is non-empty
and no request is loading; the dispatched message is exactly the trimmed
input and the field is then cleared; otherwise the state is unchanged. -/
theorem send_text_behavior (st : InputState) :
    (∀ m, (handleSendText st).2 = some m →
      m = trimText st.inputText ∧ m ≠ "" ∧ st.isLoading = false ∧
      (handleSendText st).1.inputText = "") ∧
    ((handleSendText st).2 = none → (handleSendText st).1 = st) := by
  unfold handleSendText
  by_cases h : trimText st.inputText ≠ "" ∧ st.isLoading = false
  · rw [if_pos h]
    constructor
    · intro m hm
      obtain rfl := (Option.some.injEq _ _).mp hm
      exact ⟨rfl, h.1, h.2, rfl⟩
    · intro hnone
      exact Option.noConfusion hnone
  · rw [if_neg h]
    exact ⟨fun m hm => Option.noConfusion hm, fun _ => rfl⟩

/-- C10 witness: a padded draft is dispatched trimmed and the field is
cleared. -/
theorem send_text_behavior_witness :
    "hi" = trimText "  hi  " ∧ "hi" ≠ "" ∧ (false = false) ∧
      (handleSendText ⟨"  hi  ", false⟩).1.inputText = "" :=
  (send_text_behavior ⟨"  hi  ", false⟩).1 "hi" (by
    unfold handleSendText
    rw [if_pos (by constructor <;> decide)]
    rw [show trimText "  hi  " = "hi" from rfl])

end AITutor
